import Mathlib

/-!
Verification of the LangDefLib language detector.

The repository's core is `LangDefLib/LangDefLib.py` (a profile-driven
detector, class `LangDetector`) together with a hard-coded two-language
sibling `LangLib.py`.  This file embeds both, faithfully to the Python
source: strings are `List Char`, Python dicts are insertion-ordered
association lists, Python floats are modelled as rationals, and each
Python method becomes one Lean definition of the same name.
-/

namespace LangDefLib

/-- A piece of text, modelling a Python `str` as its list of characters. -/
abbrev Text := List Char

/-- Whitespace as matched by Python's `\s` on ASCII input
(space, tab, newline, carriage return, vertical tab, form feed). -/
def pyIsSpace (c : Char) : Bool :=
  c == ' ' || c == '\t' || c == '\n' || c == '\r' || c.toNat == 0x0B || c.toNat == 0x0C

/-- Python's `\w` (word character) restricted to the scripts the library's
profiles use: ASCII alphanumerics, underscore, the Cyrillic block, and the
Latin letter ranges covering the Polish diacritics. -/
def isWordChar (c : Char) : Bool :=
  c.isAlphanum || c == '_' ||
  (0x0400 ≤ c.toNat && c.toNat ≤ 0x04FF) ||
  (0x00C0 ≤ c.toNat && c.toNat ≤ 0x024F && c.toNat ≠ 0xD7 && c.toNat ≠ 0xF7)

/-- Python's Unicode-aware `str.lower`, on the character ranges the library's
profiles use (ASCII, Cyrillic including Ё/Є/І/Ї/Ў/Ґ, Latin-1 and
Latin Extended-A letters covering the Polish diacritics). -/
def pyToLower (c : Char) : Char :=
  let n := c.toNat
  if 0x41 ≤ n && n ≤ 0x5A then Char.ofNat (n + 0x20)
  else if 0x410 ≤ n && n ≤ 0x42F then Char.ofNat (n + 0x20)
  else if 0x400 ≤ n && n ≤ 0x40F then Char.ofNat (n + 0x50)
  else if n = 0x490 then Char.ofNat 0x491
  else if 0xC0 ≤ n && n ≤ 0xDE && n ≠ 0xD7 then Char.ofNat (n + 0x20)
  else if 0x100 ≤ n && n ≤ 0x177 && n % 2 = 0 then Char.ofNat (n + 1)
  else if n = 0x179 || n = 0x17B || n = 0x17D then Char.ofNat (n + 1)
  else c

/-- Replace every maximal run of whitespace by a single space,
modelling `re.sub(r'\s+', ' ', text)`. -/
def collapseWS : List Char → List Char
  | [] => []
  | [c] => if pyIsSpace c then [' '] else [c]
  | c :: d :: cs =>
    if pyIsSpace c && pyIsSpace d then collapseWS (d :: cs)
    else (if pyIsSpace c then ' ' else c) :: collapseWS (d :: cs)

/-- Python `str.strip()`: drop leading and trailing whitespace. -/
def stripWS (t : Text) : Text :=
  ((t.dropWhile pyIsSpace).reverse.dropWhile pyIsSpace).reverse

/-- `LangDetector._clean_text`: lowercase, replace every character that is
neither a word character nor whitespace by a space, collapse whitespace
runs, and strip.  (`LangLib.py` duplicates this method verbatim; the same
definition embeds both.) -/
def cleanText (t : Text) : Text :=
  let lowered := t.map pyToLower
  let subbed := lowered.map (fun c => if isWordChar c || pyIsSpace c then c else ' ')
  stripWS (collapseWS subbed)

/-- Python `str.split()` with no separator: split on whitespace runs,
dropping empty pieces. -/
def splitWS (t : Text) : List Text :=
  (t.splitOnP pyIsSpace).filter (fun w => !w.isEmpty)

/-- Left-to-right scan behind `pyCount`: `skip` is the number of positions
still to be passed over because they are covered by the previous match. -/
def pyCountGo (needle : Text) : Text → Nat → Nat
  | [], _ => 0
  | _ :: rest, skip + 1 => pyCountGo needle rest skip
  | c :: rest, 0 =>
    if needle.isPrefixOf (c :: rest) then pyCountGo needle rest (needle.length - 1) + 1
    else pyCountGo needle rest 0

/-- Python `str.count(needle)`: the number of non-overlapping occurrences of
`needle`, scanning left to right and continuing after each match at the
first position past it.  (On an empty needle Python returns `len + 1`.) -/
def pyCount (needle : Text) (hay : Text) : Nat :=
  if needle.isEmpty then hay.length + 1
  else pyCountGo needle hay 0

/-- Follows the spec's words, for comparison with `pyCount`: the number of
possibly overlapping occurrences of `needle` as a substring of `hay`,
i.e. the number of positions at which `needle` starts. -/
def countOverlapping (needle : Text) (hay : Text) : Nat :=
  (List.range (hay.length + 1)).countP (fun i => needle.isPrefixOf (hay.drop i))

/-- Convert a list of string literals to texts. -/
def txts (l : List String) : List Text := l.map String.data

/-- The per-category weight dictionary of a profile.  `LanguageData.__init__`
defaults it to `{unique_letters: 2.0, frequent_letters: 1.0, word_endings: 1.5,
marker_words: 3.0, digrams: 1.0, trigrams: 1.2}`; every later access goes
through `dict.get` with these very same defaults, so a total record is a
faithful model. -/
structure Weights where
  unique_letters : ℚ
  frequent_letters : ℚ
  word_endings : ℚ
  marker_words : ℚ
  digrams : ℚ
  trigrams : ℚ
deriving DecidableEq

/-- The default weight dictionary from `LanguageData.__init__`. -/
def defaultWeights : Weights :=
  { unique_letters := 2, frequent_letters := 1, word_endings := 3/2,
    marker_words := 3, digrams := 1, trigrams := 6/5 }

/-- Class `LanguageData`: the static description of one language.  Python
keeps `unique_letters`/`frequent_letters`/`marker_words` as sets of strings
and tests membership of one-character strings in the first two; we keep the
lists (deduplication never changes a membership test). -/
structure LanguageData where
  unique_letters : List Text
  frequent_letters : List Text
  word_endings : List Text
  marker_words : List Text
  digrams : List Text
  trigrams : List Text
  alphabet : Text
  weights : Weights
deriving DecidableEq

/-- `BUILTIN_LANGUAGE_DATA['russian']`, wrapped in `LanguageData`. -/
def russianData : LanguageData :=
  { unique_letters := txts ["ы", "ъ", "э"]
    frequent_letters := txts ["ы", "ъ", "э", "ё"]
    word_endings := txts ["ого", "его", "ому", "ему", "ой", "ый", "ий", "ться",
      "тся", "ешь", "ет", "ем", "ете", "ут", "ют", "ят",
      "ать", "ить", "оть", "уть", "еть", "ых", "их"]
    marker_words := txts ["это", "или", "как", "который", "где", "когда",
      "словно", "потому", "кто", "также", "от", "из", "до",
      "в", "при", "для", "и", "но", "однако",
      "хотя", "чтобы", "если", "из-за", "поэтому", "ещё", "да",
      "нет", "был", "была", "было", "были"]
    digrams := txts ["ть", "тс", "ск", "ый", "ий", "тьс", "ться", "тс", "нн", "жи", "ши",
      "чн", "чк", "ни", "не", "на", "по", "вы", "за", "что", "ли", "ой", "ом"]
    trigrams := txts ["тся", "ться", "ани", "ени", "ост", "ств", "ние"]
    alphabet := "абвгдеёжзийклмнопрстуфхцчшщъыьэюя".data
    weights := defaultWeights }

/-- `BUILTIN_LANGUAGE_DATA['ukrainian']`, wrapped in `LanguageData`. -/
def ukrainianData : LanguageData :=
  { unique_letters := txts ["є", "і", "ї", "ґ"]
    frequent_letters := txts ["і", "є", "ї", "ґ", "ь"]
    word_endings := txts ["ою", "ою", "ого", "ої", "ий", "ій", "ися", "ись",
      "ться", "ться", "еться", "иться", "ються", "уються",
      "іти", "ати", "ити", "ути", "яти", "емо", "єте", "ємо"]
    marker_words := txts ["це", "або", "чи", "що", "як", "який", "котрий", "де", "коли",
      "наче", "бо", "тому", "хто", "також", "від", "з", "із", "зі",
      "до", "у", "при", "для", "та", "і", "й", "але", "проте", "однак",
      "хоча", "щоб", "якщо", "коли", "через", "тому", "ще", "так",
      "ні", "не", "є", "був", "була", "було", "були"]
    digrams := txts ["ть", "нн", "ськ", "ий", "ій", "тьс", "ьс", "ьк", "нн", "дз", "дж",
      "ґу", "ці", "не", "на", "по", "ви", "за", "що", "чи", "ої", "ою"]
    trigrams := txts ["ння", "ськ", "ість", "ува", "іст", "ють"]
    alphabet := "абвгґдеєжзиіїйклмнопрстуфхцчшщьюя".data
    weights := defaultWeights }

/-- `BUILTIN_LANGUAGE_DATA['belarusian']`, wrapped in `LanguageData`. -/
def belarusianData : LanguageData :=
  { unique_letters := txts ["ў", "і", "ь"]
    frequent_letters := txts ["ў", "і", "ь"]
    word_endings := txts ["аць", "яць", "ець", "іць", "ыць", "ога", "ага", "яго", "ай",
      "ую", "юю", "ам", "ям", "аў", "яў", "ы", "і", "а", "я"]
    marker_words := txts ["гэта", "ці", "як", "які", "дзе", "калі", "хто", "таксама",
      "ад", "з", "да", "у", "пры", "для", "і", "але", "аднак",
      "хоць", "каб", "калі", "яшчэ", "так", "не", "быў", "была", "было", "былі"]
    digrams := txts ["дз", "ць", "нн", "ў", "ы", "і", "ь", "ск", "аў", "яў"]
    trigrams := txts ["дзь", "цца", "чны", "нне", "ван", "льн"]
    alphabet := "абвгдеёжзійклмнопрстуўфхцчшыьэюя".data
    weights := defaultWeights }

/-- `BUILTIN_LANGUAGE_DATA['english']`, wrapped in `LanguageData`. -/
def englishData : LanguageData :=
  { unique_letters := []
    frequent_letters := txts ["w", "q", "x", "y", "k"]
    word_endings := txts ["ing", "ed", "ly", "tion", "sion", "ment", "ness", "ity",
      "ance", "ence", "er", "or", "ist", "s", "es"]
    marker_words := txts ["the", "and", "is", "are", "was", "were", "be", "been",
      "to", "of", "in", "for", "with", "on", "at", "from",
      "by", "about", "as", "into", "like", "through", "after",
      "over", "between", "out", "but", "or", "so", "if", "while"]
    digrams := txts ["th", "he", "an", "in", "er", "on", "at", "re", "ed", "nd",
      "to", "or", "ea", "ti", "ar", "te", "al", "st", "en", "it"]
    trigrams := txts ["the", "and", "ing", "ion", "ent", "ati", "for", "her", "ter", "hat"]
    alphabet := "abcdefghijklmnopqrstuvwxyz".data
    weights := defaultWeights }

/-- `BUILTIN_LANGUAGE_DATA['polish']`, wrapped in `LanguageData`.  Note the
source really does place the two-character strings `cz`, `sz`, `rz` inside
the `frequent_letters` character set, where a single-character membership
test can never hit them. -/
def polishData : LanguageData :=
  { unique_letters := txts ["ą", "ę", "ł", "ń", "ó", "ś", "ź", "ż"]
    frequent_letters := txts ["ą", "ę", "ł", "ń", "ó", "ś", "ź", "ż", "cz", "sz", "rz"]
    word_endings := txts ["ać", "ąć", "eć", "yć", "ść", "ości", "owa", "nego", "emu",
      "ymi", "ych", "ego", "em", "cie", "ują", "ają"]
    marker_words := txts ["to", "jest", "nie", "tak", "jak", "który", "gdzie", "kiedy",
      "od", "z", "ze", "do", "w", "przy", "dla", "i", "ale", "jednak",
      "chociaż", "żeby", "jeśli", "przez", "więc", "jeszcze"]
    digrams := txts ["cz", "sz", "rz", "dz", "ch", "ni", "ci", "ąc", "ść", "że"]
    trigrams := txts ["nie", "prz", "owa", "ści", "czn", "dzi", "anie"]
    alphabet := "aąbcćdeęfghijklłmnńoópqrsśtuvwxyzźż".data
    weights := defaultWeights }

/-- The state of one `LangDetector` instance: the ordered list of active
language identifiers (`self.languages`), the insertion-ordered mapping from
identifier to profile (`self.language_data`, an association list), and the
confidence threshold (`self.min_confidence`). -/
structure Detector where
  languages : List String
  language_data : List (String × LanguageData)
  min_confidence : ℚ
deriving DecidableEq

/-- The state `LangDetector()` reaches with no on-disk data files: the two
default languages backed by the builtin profiles, threshold `0.6`. -/
def defaultDetector : Detector :=
  { languages := ["russian", "ukrainian"]
    language_data := [("russian", russianData), ("ukrainian", ukrainianData)]
    min_confidence := 3/5 }

/-- The state `LangDetector(languages=['russian','german'])` reaches:
`_load_language_data` finds neither a file nor a builtin entry for
`'german'`, prints a warning and loads nothing, so `language_data` only
holds the russian profile while `languages` still lists both. -/
def russianGermanDetector : Detector :=
  { languages := ["russian", "german"]
    language_data := [("russian", russianData)]
    min_confidence := 3/5 }

/-- The dict comprehension `{lang: 0 for lang in self.languages}`. -/
def initScores (langs : List String) : List (String × Nat) :=
  langs.map (fun l => (l, 0))

/-- The statement `scores[k] += n` on a counter dict.  In the source this
statement only ever runs for keys of `self.language_data`, which the class
keeps inside `self.languages`, so the key is always present. -/
def bump (sc : List (String × Nat)) (k : String) (n : Nat) : List (String × Nat) :=
  sc.map (fun p => if p.1 = k then (p.1, p.2 + n) else p)

/-- `LangDetector._count_unique_letters`: builds its dict from scratch
(`scores = {}`), one entry per *loaded profile*, counting the characters of
the text that lie in the profile's `unique_letters` set. -/
def _count_unique_letters (d : Detector) (text : Text) : List (String × Nat) :=
  d.language_data.map (fun p => (p.1, text.countP (fun c => p.2.unique_letters.contains [c])))

/-- `LangDetector._count_frequent_letters`: same shape over `frequent_letters`. -/
def _count_frequent_letters (d : Detector) (text : Text) : List (String × Nat) :=
  d.language_data.map (fun p => (p.1, text.countP (fun c => p.2.frequent_letters.contains [c])))

/-- Whether a word ends with one of the profile's `word_endings`; the Python
inner loop awards one point and breaks at the first matching suffix. -/
def endingMatch (ld : LanguageData) (w : Text) : Bool :=
  ld.word_endings.any (fun e => e.isSuffixOf w)

/-- `LangDetector._check_word_endings`: dict seeded from `self.languages`,
then for every word of length at least 3 and every loaded profile, one point
on the first matching suffix. -/
def _check_word_endings (d : Detector) (words : List Text) : List (String × Nat) :=
  words.foldl (fun sc w =>
    if w.length < 3 then sc
    else d.language_data.foldl
      (fun sc2 p => if endingMatch p.2 w then bump sc2 p.1 1 else sc2) sc)
    (initScores d.languages)

/-- `LangDetector._check_marker_words`: dict seeded from `self.languages`;
words are lowercased once more, then every exact hit in a profile's
`marker_words` set scores one point. -/
def _check_marker_words (d : Detector) (words : List Text) : List (String × Nat) :=
  (words.map (fun w => w.map pyToLower)).foldl (fun sc w =>
    d.language_data.foldl
      (fun sc2 p => if p.2.marker_words.contains w then bump sc2 p.1 1 else sc2) sc)
    (initScores d.languages)

/-- `LangDetector._check_ngrams`: dict seeded from `self.languages`; on the
lowercased text, for each loaded profile add `text.count(pattern)` (Python's
non-overlapping substring count) for every pattern of the `digrams` list
when `n = 2`, of the `trigrams` list when `n = 3`. -/
def _check_ngrams (d : Detector) (text : Text) (n : Nat) : List (String × Nat) :=
  let textLower := text.map pyToLower
  d.language_data.foldl (fun sc p =>
    if n = 2 then p.2.digrams.foldl (fun sc2 g => bump sc2 p.1 (pyCount g textLower)) sc
    else if n = 3 then p.2.trigrams.foldl (fun sc2 g => bump sc2 p.1 (pyCount g textLower)) sc
    else sc)
    (initScores d.languages)

/-- Follows the spec's words, for comparison with `_check_ngrams`: the same
extractor but with possibly-overlapping occurrence counts, as §3 and §4.2 of
the spec describe ("overlapping occurrences counted"). -/
def specCheckNgrams (d : Detector) (text : Text) (n : Nat) : List (String × Nat) :=
  let textLower := text.map pyToLower
  d.language_data.foldl (fun sc p =>
    if n = 2 then p.2.digrams.foldl (fun sc2 g => bump sc2 p.1 (countOverlapping g textLower)) sc
    else if n = 3 then p.2.trigrams.foldl (fun sc2 g => bump sc2 p.1 (countOverlapping g textLower)) sc
    else sc)
    (initScores d.languages)

/-- `counts.get(lang, 0)` on a counter dict. -/
def getCount (m : List (String × Nat)) (k : String) : Nat :=
  (m.lookup k).getD 0

/-- The assignment `scores[k] = v` on a float dict: overwrite the entry when
the key is present, append it otherwise. -/
def setKey (sc : List (String × ℚ)) (k : String) (v : ℚ) : List (String × ℚ) :=
  if sc.any (fun p => p.1 = k) then sc.map (fun p => if p.1 = k then (k, v) else p)
  else sc ++ [(k, v)]

/-- The weighted per-language score `LangDetector._calculate_weighted_scores`
assigns to one profile. -/
def weightedScore (ld : LanguageData) (u f we m dg tg : List (String × Nat)) (k : String) : ℚ :=
  (getCount u k : ℚ) * ld.weights.unique_letters +
  (getCount f k : ℚ) * ld.weights.frequent_letters +
  (getCount we k : ℚ) * ld.weights.word_endings +
  (getCount m k : ℚ) * ld.weights.marker_words +
  (getCount dg k : ℚ) * ld.weights.digrams +
  (getCount tg k : ℚ) * ld.weights.trigrams

/-- `LangDetector._calculate_weighted_scores`: dict seeded with `0.0` from
`self.languages`, then for each loaded profile the weighted sum of the six
counts (each read with `.get(lang, 0)`). -/
def _calculate_weighted_scores (d : Detector)
    (u f we m dg tg : List (String × Nat)) : List (String × ℚ) :=
  d.language_data.foldl (fun sc p => setKey sc p.1 (weightedScore p.2 u f we m dg tg p.1))
    (d.languages.map (fun l => (l, (0 : ℚ))))

/-- The `{'language': ..., 'confidence': ...}` dictionary `detect` returns. -/
structure DetectResult where
  language : String
  confidence : ℚ
deriving DecidableEq

/-- The fast-path test applied to one entry of the unique-letter counts:
`score > 0 and all(s == 0 for l, s in unique_scores.items() if l != lang)`. -/
def fastCond (scores : List (String × Nat)) (p : String × Nat) : Bool :=
  0 < p.2 && scores.all (fun q => q.1 == p.1 || q.2 == 0)

/-- The fast-path loop of `detect`: return the first language of the
unique-letter count dict whose count is positive while every other
language's count is zero. -/
def fastPathFind (scores : List (String × Nat)) : Option String :=
  (scores.find? (fastCond scores)).map Prod.fst

/-- One step of Python's `max`: replace the current candidate only when the
new item's key is strictly greater. -/
def pyMaxStep (acc : Option (String × ℚ)) (p : String × ℚ) : Option (String × ℚ) :=
  match acc with
  | none => some p
  | some q => if q.2 < p.2 then some p else some q

/-- Python `max(scores.items(), key=lambda x: x[1])`: the first entry, in
iteration order, carrying the maximal value. -/
def pyMax (scores : List (String × ℚ)) : Option (String × ℚ) :=
  scores.foldl pyMaxStep none

/-- The six feature-count dicts `detect` and `analyze` both compute, in
source order. -/
structure Metrics where
  unique_letters : List (String × Nat)
  frequent_letters : List (String × Nat)
  word_endings : List (String × Nat)
  marker_words : List (String × Nat)
  digrams : List (String × Nat)
  trigrams : List (String × Nat)
deriving DecidableEq

/-- Run all six extractors on the cleaned text and its words. -/
def fullMetrics (d : Detector) (cleaned : Text) (words : List Text) : Metrics :=
  { unique_letters := _count_unique_letters d cleaned
    frequent_letters := _count_frequent_letters d cleaned
    word_endings := _check_word_endings d words
    marker_words := _check_marker_words d words
    digrams := _check_ngrams d cleaned 2
    trigrams := _check_ngrams d cleaned 3 }

/-- The weighted score dict both `detect` and `analyze` aggregate from the
six extractors. -/
def fullScores (d : Detector) (cleaned : Text) (words : List Text) : List (String × ℚ) :=
  let m := fullMetrics d cleaned words
  _calculate_weighted_scores d m.unique_letters m.frequent_letters m.word_endings
    m.marker_words m.digrams m.trigrams

/-- The shared tail of `detect` and `analyze` (the source duplicates this
block verbatim in the two methods): sum the scores, return `unknown, 0.0`
on a zero total, otherwise take the maximal language, divide by the total,
and suppress the language (keeping the confidence) below the threshold. -/
def fullVerdict (d : Detector) (cleaned : Text) (words : List Text) : DetectResult :=
  let scores := fullScores d cleaned words
  let total := (scores.map Prod.snd).sum
  if total = 0 then ⟨"unknown", 0⟩
  else
    match pyMax scores with
    | none => ⟨"unknown", 0⟩
    | some best =>
      let conf := best.2 / total
      if conf < d.min_confidence then ⟨"unknown", conf⟩ else ⟨best.1, conf⟩

/-- `LangDetector.detect` on a string argument: the three emptiness guards,
the unique-letter fast path at fixed confidence `0.95`, and otherwise the
full scoring pipeline. -/
def detect (d : Detector) (t : Text) : DetectResult :=
  if t.isEmpty then ⟨"unknown", 0⟩
  else
    let cleaned := cleanText t
    if cleaned.isEmpty then ⟨"unknown", 0⟩
    else
      let words := splitWS cleaned
      if words.isEmpty then ⟨"unknown", 0⟩
      else
        match fastPathFind (_count_unique_letters d cleaned) with
        | some lang => ⟨lang, 19/20⟩
        | none => fullVerdict d cleaned words

/-- `LangDetector.detect` including the `not isinstance(text, str)` guard:
`none` stands for a non-string argument. -/
def detectAny (d : Detector) (t : Option Text) : DetectResult :=
  match t with
  | none => ⟨"unknown", 0⟩
  | some t => detect d t

/-- One entry of `analyze`'s `top_languages` list. -/
structure TopEntry where
  language : String
  score : ℚ
  confidence : ℚ
deriving DecidableEq

/-- The `stats` block of `analyze`'s report. -/
structure Stats where
  text_length : Nat
  cleaned_length : Nat
  word_count : Nat
  average_word_length : ℚ
deriving DecidableEq

/-- What `LangDetector.analyze` returns: either one of its two error
dictionaries (which carry no `language`/`confidence` keys) or the full
report. -/
inductive AnalyzeResult where
  | error (msg : String)
  | report (language : String) (confidence : ℚ) (stats : Stats) (metrics : Metrics)
      (scores : List (String × ℚ)) (top_languages : List TopEntry)
deriving DecidableEq

/-- The `language` key of an `analyze` result, absent on the error shapes. -/
def AnalyzeResult.language? : AnalyzeResult → Option String
  | .error _ => none
  | .report l _ _ _ _ _ => some l

/-- The `confidence` key of an `analyze` result, absent on the error shapes. -/
def AnalyzeResult.confidence? : AnalyzeResult → Option ℚ
  | .error _ => none
  | .report _ c _ _ _ _ => some c

/-- The `top_languages` list of an `analyze` result (empty on the error
shapes, which carry none). -/
def AnalyzeResult.top : AnalyzeResult → List TopEntry
  | .error _ => []
  | .report _ _ _ _ _ tl => tl

/-- Descending stable sort by score: Python's stable
`sorted(scores.items(), key=lambda x: x[1], reverse=True)`.  Inserting each
earlier element in front of the first entry with a smaller-or-equal score is
exactly the stable descending order. -/
def sortByScoreDesc (scores : List (String × ℚ)) : List (String × ℚ) :=
  List.insertionSort (fun a b => b.2 ≤ a.2) scores

/-- `LangDetector.analyze`: the two error guards, then the full pipeline
(never the fast path), plus statistics, raw metrics, scores and the top-3
list `[... for lang, score in sorted_scores[:3] if score > 0]`. -/
def analyze (d : Detector) (t : Text) : AnalyzeResult :=
  if t.isEmpty then .error "Empty or invalid text"
  else
    let cleaned := cleanText t
    if cleaned.isEmpty then .error "Text contains no analyzable content"
    else
      let words := splitWS cleaned
      let m := fullMetrics d cleaned words
      let scores := fullScores d cleaned words
      let total := (scores.map Prod.snd).sum
      let verdict := fullVerdict d cleaned words
      let stats : Stats :=
        { text_length := t.length
          cleaned_length := cleaned.length
          word_count := words.length
          average_word_length :=
            if words.isEmpty then 0
            else ((words.map List.length).sum : ℚ) / (words.length : ℚ) }
      let top := (((sortByScoreDesc scores).take 3).filter (fun p => 0 < p.2)).map
        (fun p => TopEntry.mk p.1 p.2 (if 0 < total then p.2 / total else 0))
      .report verdict.language verdict.confidence stats m scores top

/-- `LangDetector.analyze` including the `not isinstance(text, str)` guard. -/
def analyzeAny (d : Detector) (t : Option Text) : AnalyzeResult :=
  match t with
  | none => .error "Empty or invalid text"
  | some t => analyze d t

end LangDefLib

namespace LangLib

/-! Embedding of `LangLib.py`, the hard-coded Russian/Ukrainian classifier.
Its `_clean_text` duplicates `LangDefLib._clean_text` verbatim, so
`LangDefLib.cleanText` and `LangDefLib.splitWS` embed its normalization. -/

open LangDefLib (Text txts pyToLower pyCount cleanText splitWS)

/-- `self.russian_unique = set(['ы', 'ъ', 'э'])`. -/
def russian_unique : List Text := txts ["ы", "ъ", "э"]

/-- `self.ukrainian_unique = set(['є', 'і', 'ї', 'ґ'])`. -/
def ukrainian_unique : List Text := txts ["є", "і", "ї", "ґ"]

/-- `self.uk_frequent = set(['і', 'є', 'ї', 'ґ', 'ь'])`. -/
def uk_frequent : List Text := txts ["і", "є", "ї", "ґ", "ь"]

/-- `self.ru_frequent = set(['ы', 'ъ', 'э'])` — note: unlike the builtin
russian profile of `LangDefLib.py`, it does not contain `'ё'`. -/
def ru_frequent : List Text := txts ["ы", "ъ", "э"]

/-- `self.ukrainian_endings`. -/
def ukrainian_endings : List Text :=
  txts ["ою", "ою", "ого", "ої", "ий", "ій", "ися", "ись",
    "ться", "ться", "еться", "иться", "ються", "уються",
    "іти", "ати", "ити", "ути", "яти", "емо", "єте", "ємо"]

/-- `self.russian_endings`. -/
def russian_endings : List Text :=
  txts ["ого", "его", "ому", "ему", "ой", "ый", "ий", "ться",
    "тся", "ешь", "ет", "ем", "ете", "ут", "ют", "ят",
    "ать", "ить", "оть", "уть", "еть", "ых", "их"]

/-- `self.ukrainian_words`. -/
def ukrainian_words : List Text :=
  txts ["це", "або", "чи", "що", "як", "який", "котрий", "де", "коли",
    "наче", "бо", "тому", "хто", "також", "від", "з", "із", "зі",
    "до", "у", "при", "для", "та", "і", "й", "але", "проте", "однак",
    "хоча", "щоб", "якщо", "коли", "через", "тому", "ще", "так",
    "ні", "не", "є", "був", "була", "було", "були"]

/-- `self.russian_words`. -/
def russian_words : List Text :=
  txts ["это", "или", "как", "который", "где", "когда",
    "словно", "потому", "кто", "также", "от", "из", "до",
    "в", "при", "для", "и", "но", "однако",
    "хотя", "чтобы", "если", "из-за", "поэтому", "ещё", "да",
    "нет", "был", "была", "было", "были"]

/-- `self.ukrainian_digrams`. -/
def ukrainian_digrams : List Text :=
  txts ["ть", "нн", "ськ", "ий", "ій", "тьс", "ьс", "ьк", "нн", "дз", "дж",
    "ґу", "ці", "не", "на", "по", "ви", "за", "що", "чи", "ої", "ою"]

/-- `self.russian_digrams`. -/
def russian_digrams : List Text :=
  txts ["ть", "тс", "ск", "ый", "ий", "тьс", "ться", "тс", "нн", "жи", "ши",
    "чн", "чк", "ни", "не", "на", "по", "вы", "за", "что", "ли", "ой", "ом"]

/-- `LangDetector._count_unique_letters` of `LangLib.py`:
`(ru_count, uk_count)`. -/
def _count_unique_letters (t : Text) : Nat × Nat :=
  (t.countP (fun c => russian_unique.contains [c]),
   t.countP (fun c => ukrainian_unique.contains [c]))

/-- `LangDetector._count_frequent_letters` of `LangLib.py`. -/
def _count_frequent_letters (t : Text) : Nat × Nat :=
  (t.countP (fun c => ru_frequent.contains [c]),
   t.countP (fun c => uk_frequent.contains [c]))

/-- `LangDetector._check_word_endings` of `LangLib.py`: per word of length
at least 3, one point per language on the first matching suffix. -/
def _check_word_endings (words : List Text) : Nat × Nat :=
  words.foldl (fun s w =>
    if w.length < 3 then s
    else ((if russian_endings.any (fun e => e.isSuffixOf w) then s.1 + 1 else s.1),
          (if ukrainian_endings.any (fun e => e.isSuffixOf w) then s.2 + 1 else s.2)))
    (0, 0)

/-- `LangDetector._check_marker_words` of `LangLib.py`. -/
def _check_marker_words (words : List Text) : Nat × Nat :=
  (words.map (fun w => w.map pyToLower)).foldl (fun s w =>
    ((if russian_words.contains w then s.1 + 1 else s.1),
     (if ukrainian_words.contains w then s.2 + 1 else s.2)))
    (0, 0)

/-- `LangDetector._check_digrams` of `LangLib.py`: the sum of Python
`str.count` over each language's digram list. -/
def _check_digrams (t : Text) : Nat × Nat :=
  let tl := t.map pyToLower
  ((russian_digrams.map (fun g => pyCount g tl)).sum,
   (ukrainian_digrams.map (fun g => pyCount g tl)).sum)

/-- The `{'language': ..., 'confidence': ...}` part of what
`LangLib.get_confidence` returns (its `details` diagnostic payload repeats
the metrics and scores and is not modelled). -/
structure ConfResult where
  language : String
  confidence : ℚ
deriving DecidableEq

/-- `LangDetector.get_confidence` of `LangLib.py`: full scoring with weights
2 / 1 / 1.5 / 3 / 1, no fast path, no trigram feature, no threshold gate,
and ties on the top score going to `'ukrainian'`
(`if scores['russian'] > scores['ukrainian'] ... else ukrainian`). -/
def get_confidence (t : Text) : ConfResult :=
  if t.isEmpty then ⟨"unknown", 0⟩
  else
    let cleaned := cleanText t
    if cleaned.isEmpty then ⟨"unknown", 0⟩
    else
      let words := splitWS cleaned
      if words.isEmpty then ⟨"unknown", 0⟩
      else
        let u := _count_unique_letters cleaned
        let f := _count_frequent_letters cleaned
        let e := _check_word_endings words
        let m := _check_marker_words words
        let dg := _check_digrams cleaned
        let ruScore : ℚ := (u.1 : ℚ) * 2 + (f.1 : ℚ) + (e.1 : ℚ) * (3/2) + (m.1 : ℚ) * 3 + (dg.1 : ℚ)
        let ukScore : ℚ := (u.2 : ℚ) * 2 + (f.2 : ℚ) + (e.2 : ℚ) * (3/2) + (m.2 : ℚ) * 3 + (dg.2 : ℚ)
        let total := ruScore + ukScore
        if total = 0 then ⟨"unknown", 0⟩
        else if ukScore < ruScore then ⟨"russian", ruScore / total⟩
        else ⟨"ukrainian", ukScore / total⟩

end LangLib

namespace LangDefLib

/-! Helper lemmas about the dict model. -/

theorem bump_map_fst (sc : List (String × Nat)) (k : String) (n : Nat) :
    (bump sc k n).map Prod.fst = sc.map Prod.fst := by
  unfold bump
  rw [List.map_map]
  apply List.map_congr_left
  intro p _
  by_cases h : p.1 = k <;> simp [h]

theorem bump_zero (sc : List (String × Nat)) (k : String) : bump sc k 0 = sc := by
  unfold bump
  have h : ∀ p ∈ sc, (if p.1 = k then (p.1, p.2 + 0) else p) = id p := by
    intro p _
    by_cases hp : p.1 = k
    · rw [if_pos hp]
      rfl
    · rw [if_neg hp]
      rfl
  rw [List.map_congr_left h, List.map_id]

theorem bump_bump (sc : List (String × Nat)) (k : String) (a b : Nat) :
    bump (bump sc k a) k b = bump sc k (a + b) := by
  unfold bump
  rw [List.map_map]
  apply List.map_congr_left
  intro p _
  by_cases h : p.1 = k <;> simp [h, Nat.add_assoc]

theorem lookup_bump_self (sc : List (String × Nat)) (k : String) (n : Nat) :
    (bump sc k n).lookup k = (sc.lookup k).map (· + n) := by
  induction sc with
  | nil => rfl
  | cons p rest ih =>
    obtain ⟨a, v⟩ := p
    unfold bump at ih ⊢
    by_cases h : a = k
    · subst h
      simp [List.lookup_cons]
    · have hne : (k == a) = false := by simp [beq_iff_eq]; exact fun hh => h hh.symm
      simp only [List.map_cons, if_neg h, List.lookup_cons, hne, ih]

theorem lookup_bump_ne (sc : List (String × Nat)) (k j : String) (n : Nat) (h : j ≠ k) :
    (bump sc k n).lookup j = sc.lookup j := by
  induction sc with
  | nil => rfl
  | cons p rest ih =>
    obtain ⟨a, v⟩ := p
    unfold bump at ih ⊢
    by_cases hp : a = k
    · subst hp
      have hne : (j == a) = false := by simp [beq_iff_eq, h]
      simp [List.lookup_cons, hne, ih]
    · simp only [List.map_cons, if_neg hp, List.lookup_cons, ih]

theorem lookup_initScores (langs : List String) (k : String) (h : k ∈ langs) :
    (initScores langs).lookup k = some 0 := by
  induction langs with
  | nil => cases h
  | cons l rest ih =>
    unfold initScores at ih ⊢
    by_cases hl : k = l
    · subst hl
      simp [List.lookup_cons]
    · have hmem := List.mem_of_ne_of_mem hl h
      have hne : (k == l) = false := by simp [beq_iff_eq, hl]
      simp only [List.map_cons, List.lookup_cons, hne, ih hmem]

theorem initScores_map_fst (langs : List String) :
    (initScores langs).map Prod.fst = langs := by
  induction langs with
  | nil => rfl
  | cons l rest ih =>
    unfold initScores at ih ⊢
    simpa using ih

theorem foldl_congr_fun {α β : Type} (l : List β) (f g : α → β → α) (init : α)
    (h : ∀ a b, f a b = g a b) : l.foldl f init = l.foldl g init := by
  induction l generalizing init with
  | nil => rfl
  | cons b rest ih => rw [List.foldl_cons, List.foldl_cons, h, ih]

theorem foldl_bump_collapse (ps : List Text) (f : Text → Nat) (k : String)
    (sc : List (String × Nat)) :
    ps.foldl (fun s g => bump s k (f g)) sc = bump sc k ((ps.map f).sum) := by
  induction ps generalizing sc with
  | nil => simp [bump_zero]
  | cons g rest ih =>
    simp only [List.foldl_cons, List.map_cons, List.sum_cons]
    rw [ih, bump_bump]

theorem foldl_fst_invariant {α : Type} (f : List (String × Nat) → α → List (String × Nat))
    (h : ∀ sc a, (f sc a).map Prod.fst = sc.map Prod.fst) (l : List α)
    (sc : List (String × Nat)) :
    (l.foldl f sc).map Prod.fst = sc.map Prod.fst := by
  induction l generalizing sc with
  | nil => rfl
  | cons a rest ih => rw [List.foldl_cons, ih, h]

theorem foldl_lookup_invariant {α : Type} (k : String)
    (f : List (String × Nat) → α → List (String × Nat))
    (h : ∀ sc a, (f sc a).lookup k = sc.lookup k) (l : List α)
    (sc : List (String × Nat)) :
    (l.foldl f sc).lookup k = sc.lookup k := by
  induction l generalizing sc with
  | nil => rfl
  | cons a rest ih => rw [List.foldl_cons, ih, h]

theorem lookup_foldl_bumpData_not_mem (data : List (String × LanguageData))
    (g : String × LanguageData → Nat) (sc : List (String × Nat)) (k : String)
    (h : k ∉ data.map Prod.fst) :
    (data.foldl (fun sc p => bump sc p.1 (g p)) sc).lookup k = sc.lookup k := by
  induction data generalizing sc with
  | nil => rfl
  | cons p rest ih =>
    simp only [List.map_cons, List.mem_cons, not_or] at h
    rw [List.foldl_cons, ih _ h.2, lookup_bump_ne _ _ _ _ h.1]

theorem lookup_foldl_bumpData_mem (data : List (String × LanguageData))
    (g : String × LanguageData → Nat) (sc : List (String × Nat)) (k : String)
    (ld : LanguageData) (hnd : (data.map Prod.fst).Nodup) (hmem : (k, ld) ∈ data) :
    (data.foldl (fun sc p => bump sc p.1 (g p)) sc).lookup k
      = (sc.lookup k).map (· + g (k, ld)) := by
  induction data generalizing sc with
  | nil => cases hmem
  | cons p rest ih =>
    simp only [List.map_cons, List.nodup_cons] at hnd
    rw [List.foldl_cons]
    rcases List.mem_cons.mp hmem with heq | hrest
    · have hpk : p.1 = k := by rw [← heq]
      have hk : k ∉ rest.map Prod.fst := hpk ▸ hnd.1
      rw [lookup_foldl_bumpData_not_mem rest g _ k hk, ← heq, lookup_bump_self]
    · have hkrest : k ∈ rest.map Prod.fst := by
        exact List.mem_map.mpr ⟨(k, ld), hrest, rfl⟩
      have hne : p.1 ≠ k := fun hh => hnd.1 (hh ▸ hkrest)
      rw [ih _ hnd.2 hrest, lookup_bump_ne _ _ _ _ (Ne.symm hne)]

theorem lookup_foldl_condBump_not_mem (data : List (String × LanguageData))
    (C : String × LanguageData → Bool) (sc : List (String × Nat)) (k : String)
    (h : k ∉ data.map Prod.fst) :
    (data.foldl (fun sc2 p => if C p then bump sc2 p.1 1 else sc2) sc).lookup k
      = sc.lookup k := by
  induction data generalizing sc with
  | nil => rfl
  | cons p rest ih =>
    simp only [List.map_cons, List.mem_cons, not_or] at h
    rw [List.foldl_cons, ih _ h.2]
    by_cases hc : C p = true
    · rw [if_pos hc, lookup_bump_ne _ _ _ _ h.1]
    · rw [if_neg hc]

theorem check_ngrams_eq_two (d : Detector) (t : Text) :
    _check_ngrams d t 2
      = d.language_data.foldl
          (fun sc p =>
            bump sc p.1 ((p.2.digrams.map (fun g => pyCount g (t.map pyToLower))).sum))
          (initScores d.languages) := by
  unfold _check_ngrams
  apply foldl_congr_fun
  intro sc p
  rw [if_pos rfl, foldl_bump_collapse]

theorem check_ngrams_eq_three (d : Detector) (t : Text) :
    _check_ngrams d t 3
      = d.language_data.foldl
          (fun sc p =>
            bump sc p.1 ((p.2.trigrams.map (fun g => pyCount g (t.map pyToLower))).sum))
          (initScores d.languages) := by
  unfold _check_ngrams
  apply foldl_congr_fun
  intro sc p
  rw [if_neg (by decide), if_pos rfl, foldl_bump_collapse]

theorem lookup_check_ngrams_two (d : Detector) (t : Text) (lang : String)
    (ld : LanguageData) (hnd : (d.language_data.map Prod.fst).Nodup)
    (hlang : lang ∈ d.languages) (hmem : (lang, ld) ∈ d.language_data) :
    (_check_ngrams d t 2).lookup lang
      = some ((ld.digrams.map (fun g => pyCount g (t.map pyToLower))).sum) := by
  rw [check_ngrams_eq_two,
    lookup_foldl_bumpData_mem _ _ _ _ ld hnd hmem, lookup_initScores _ _ hlang]
  simp

theorem lookup_check_ngrams_three (d : Detector) (t : Text) (lang : String)
    (ld : LanguageData) (hnd : (d.language_data.map Prod.fst).Nodup)
    (hlang : lang ∈ d.languages) (hmem : (lang, ld) ∈ d.language_data) :
    (_check_ngrams d t 3).lookup lang
      = some ((ld.trigrams.map (fun g => pyCount g (t.map pyToLower))).sum) := by
  rw [check_ngrams_eq_three,
    lookup_foldl_bumpData_mem _ _ _ _ ld hnd hmem, lookup_initScores _ _ hlang]
  simp

theorem foldl_pyMaxStep_mem (l : List (String × ℚ)) (acc : Option (String × ℚ))
    (p : String × ℚ) (h : l.foldl pyMaxStep acc = some p) : acc = some p ∨ p ∈ l := by
  induction l generalizing acc with
  | nil => exact Or.inl h
  | cons a rest ih =>
    rw [List.foldl_cons] at h
    rcases ih _ h with hacc | hmem
    · unfold pyMaxStep at hacc
      match acc, hacc with
      | none, hacc =>
        right
        exact List.mem_cons.mpr (Or.inl (Option.some_injective _ hacc).symm)
      | some q, hacc =>
        have hacc2 : (if q.2 < a.2 then some a else some q) = some p := hacc
        by_cases hlt : q.2 < a.2
        · rw [if_pos hlt] at hacc2
          right
          exact List.mem_cons.mpr (Or.inl (Option.some_injective _ hacc2).symm)
        · rw [if_neg hlt] at hacc2
          exact Or.inl hacc2
    · right
      exact List.mem_cons.mpr (Or.inr hmem)

theorem pyMax_mem (l : List (String × ℚ)) (p : String × ℚ) (h : pyMax l = some p) :
    p ∈ l := by
  rcases foldl_pyMaxStep_mem l none p h with hacc | hmem
  · cases hacc
  · exact hmem

/-- Non-negativity of all six weight entries; the profile invariant C4
assumes. -/
def Weights.NonNeg (w : Weights) : Prop :=
  0 ≤ w.unique_letters ∧ 0 ≤ w.frequent_letters ∧ 0 ≤ w.word_endings ∧
  0 ≤ w.marker_words ∧ 0 ≤ w.digrams ∧ 0 ≤ w.trigrams

instance (w : Weights) : Decidable w.NonNeg := by
  unfold Weights.NonNeg
  infer_instance

theorem weightedScore_nonneg (ld : LanguageData) (u f we m dg tg : List (String × Nat))
    (k : String) (h : ld.weights.NonNeg) : 0 ≤ weightedScore ld u f we m dg tg k := by
  obtain ⟨h1, h2, h3, h4, h5, h6⟩ := h
  unfold weightedScore
  have n : ∀ (x : Nat), (0 : ℚ) ≤ (x : ℚ) := fun x => Nat.cast_nonneg x
  repeat apply add_nonneg
  all_goals apply mul_nonneg (n _)
  exacts [h1, h2, h3, h4, h5, h6]

theorem mem_setKey (sc : List (String × ℚ)) (k : String) (v : ℚ) (p : String × ℚ)
    (h : p ∈ setKey sc k v) : p = (k, v) ∨ p ∈ sc := by
  unfold setKey at h
  by_cases hc : sc.any (fun p => p.1 = k) = true
  · rw [if_pos hc] at h
    obtain ⟨q, hq, heq⟩ := List.mem_map.mp h
    by_cases hqk : q.1 = k
    · rw [if_pos hqk] at heq
      exact Or.inl heq.symm
    · rw [if_neg hqk] at heq
      exact Or.inr (heq ▸ hq)
  · rw [if_neg hc] at h
    rcases List.mem_append.mp h with hmem | hone
    · exact Or.inr hmem
    · exact Or.inl (List.mem_singleton.mp hone)

theorem calc_scores_nonneg (d : Detector) (u f we m dg tg : List (String × Nat))
    (hw : ∀ p ∈ d.language_data, Weights.NonNeg p.2.weights) :
    ∀ p ∈ _calculate_weighted_scores d u f we m dg tg, 0 ≤ p.2 := by
  unfold _calculate_weighted_scores
  have main : ∀ (data : List (String × LanguageData)) (sc : List (String × ℚ)),
      (∀ p ∈ data, Weights.NonNeg p.2.weights) → (∀ p ∈ sc, 0 ≤ p.2) →
      ∀ p ∈ data.foldl
        (fun sc p => setKey sc p.1 (weightedScore p.2 u f we m dg tg p.1)) sc, 0 ≤ p.2 := by
    intro data
    induction data with
    | nil => exact fun sc _ hsc p hp => hsc p hp
    | cons q rest ih =>
      intro sc hdata hsc p hp
      rw [List.foldl_cons] at hp
      refine ih _ (fun r hr => hdata r (List.mem_cons_of_mem _ hr)) ?_ p hp
      intro r hr
      rcases mem_setKey _ _ _ _ hr with heq | hmem
      · rw [heq]
        exact weightedScore_nonneg q.2 u f we m dg tg q.1 (hdata q (List.mem_cons_self q rest))
      · exact hsc r hmem
  refine main _ _ hw ?_
  intro p hp
  obtain ⟨l, _, heq⟩ := List.mem_map.mp hp
  rw [← heq]

theorem fullScores_nonneg (d : Detector) (cleaned : Text) (words : List Text)
    (hw : ∀ p ∈ d.language_data, Weights.NonNeg p.2.weights) :
    ∀ p ∈ fullScores d cleaned words, 0 ≤ p.2 := by
  unfold fullScores
  exact calc_scores_nonneg d _ _ _ _ _ _ hw

theorem fastCond_iff (scores : List (String × Nat)) (p : String × Nat) :
    fastCond scores p = true ↔ 0 < p.2 ∧ ∀ q ∈ scores, q.1 = p.1 ∨ q.2 = 0 := by
  unfold fastCond
  simp [List.all_eq_true]

theorem fastPathFind_eq_some (scores : List (String × Nat)) (L : String) (n : Nat)
    (hmem : (L, n) ∈ scores) (hpos : 0 < n)
    (hzero : ∀ p ∈ scores, p.1 ≠ L → p.2 = 0) : fastPathFind scores = some L := by
  have hcond : fastCond scores (L, n) = true := by
    rw [fastCond_iff]
    refine ⟨hpos, fun q hq => ?_⟩
    by_cases hqL : q.1 = L
    · exact Or.inl hqL
    · exact Or.inr (hzero q hq hqL)
  have hsome : (scores.find? (fastCond scores)).isSome := by
    rw [List.find?_isSome]
    exact ⟨(L, n), hmem, hcond⟩
  obtain ⟨q, hfind⟩ := Option.isSome_iff_exists.mp hsome
  have hq_mem := List.mem_of_find?_eq_some hfind
  have hq_cond := (fastCond_iff scores q).mp (List.find?_some hfind)
  have hqL : q.1 = L := by
    by_contra hne
    have := hzero q hq_mem hne
    omega
  unfold fastPathFind
  rw [hfind]
  simp [hqL]

theorem fastCond_perm (s₁ s₂ : List (String × Nat)) (hperm : s₁.Perm s₂)
    (p : String × Nat) : fastCond s₁ p = fastCond s₂ p := by
  rw [Bool.eq_iff_iff, fastCond_iff, fastCond_iff]
  constructor
  · rintro ⟨h1, h2⟩
    exact ⟨h1, fun q hq => h2 q (hperm.mem_iff.mpr hq)⟩
  · rintro ⟨h1, h2⟩
    exact ⟨h1, fun q hq => h2 q (hperm.mem_iff.mp hq)⟩

theorem fastCond_keys_eq (s : List (String × Nat)) (p q : String × Nat) (hq : q ∈ s)
    (hp : fastCond s p = true) (hq2 : fastCond s q = true) : p.1 = q.1 := by
  obtain ⟨hppos, hpall⟩ := (fastCond_iff s p).mp hp
  obtain ⟨hqpos, _⟩ := (fastCond_iff s q).mp hq2
  rcases hpall q hq with heq | hzero
  · exact heq.symm
  · omega

theorem fastPathFind_perm (s₁ s₂ : List (String × Nat)) (hperm : s₁.Perm s₂) :
    fastPathFind s₁ = fastPathFind s₂ := by
  unfold fastPathFind
  cases h1 : s₁.find? (fastCond s₁) with
  | none =>
    have hnone : ∀ x ∈ s₁, ¬ fastCond s₁ x := List.find?_eq_none.mp h1
    have h2 : s₂.find? (fastCond s₂) = none := by
      rw [List.find?_eq_none]
      intro x hx
      rw [← fastCond_perm s₁ s₂ hperm]
      exact hnone x (hperm.mem_iff.mpr hx)
    rw [h2]
  | some p =>
    have hp_mem := List.mem_of_find?_eq_some h1
    have hp_cond := List.find?_some h1
    have hsome2 : (s₂.find? (fastCond s₂)).isSome := by
      rw [List.find?_isSome]
      exact ⟨p, hperm.mem_iff.mp hp_mem, (fastCond_perm s₁ s₂ hperm p) ▸ hp_cond⟩
    obtain ⟨q, h2⟩ := Option.isSome_iff_exists.mp hsome2
    have hq_mem := List.mem_of_find?_eq_some h2
    have hq_cond := List.find?_some h2
    have hq_cond1 : fastCond s₁ q = true := by
      rw [fastCond_perm s₁ s₂ hperm]
      exact hq_cond
    have hkeys : p.1 = q.1 :=
      fastCond_keys_eq s₁ p q (hperm.mem_iff.mpr hq_mem) hp_cond hq_cond1
    rw [h2]
    simp [hkeys]

theorem guards_of_splitWS_ne (t : Text) (h : splitWS (cleanText t) ≠ []) :
    t ≠ [] ∧ cleanText t ≠ [] := by
  constructor
  · intro ht
    apply h
    rw [ht]
    rfl
  · intro hc
    apply h
    rw [hc]
    rfl

theorem detect_eq_of_tokens (d : Detector) (t : Text) (h : splitWS (cleanText t) ≠ []) :
    detect d t
      = match fastPathFind (_count_unique_letters d (cleanText t)) with
        | some lang => (⟨lang, 19/20⟩ : DetectResult)
        | none => fullVerdict d (cleanText t) (splitWS (cleanText t)) := by
  obtain ⟨ht, hc⟩ := guards_of_splitWS_ne t h
  simp only [detect]
  rw [if_neg (by simpa using ht), if_neg (by simpa using hc), if_neg (by simpa using h)]

theorem detect_unknown_of_clean_nil (d : Detector) (t : Text) (h : cleanText t = []) :
    detect d t = ⟨"unknown", 0⟩ := by
  simp only [detect]
  by_cases ht : t = []
  · rw [if_pos (by simpa using ht)]
  · rw [if_neg (by simpa using ht), if_pos (by simpa using h)]

theorem analyze_error_of_clean_nil (d : Detector) (t : Text) (h : cleanText t = []) :
    analyze d t = .error "Empty or invalid text"
      ∨ analyze d t = .error "Text contains no analyzable content" := by
  simp only [analyze]
  by_cases ht : t = []
  · rw [if_pos (by simpa using ht)]
    exact Or.inl rfl
  · rw [if_neg (by simpa using ht), if_pos (by simpa using h)]
    exact Or.inr rfl

theorem analyze_language?_eq (d : Detector) (t : Text) (h : splitWS (cleanText t) ≠ []) :
    (analyze d t).language?
      = some (fullVerdict d (cleanText t) (splitWS (cleanText t))).language := by
  obtain ⟨ht, hc⟩ := guards_of_splitWS_ne t h
  simp only [analyze]
  rw [if_neg (by simpa using ht), if_neg (by simpa using hc)]
  rfl

theorem analyze_confidence?_eq (d : Detector) (t : Text) (h : splitWS (cleanText t) ≠ []) :
    (analyze d t).confidence?
      = some (fullVerdict d (cleanText t) (splitWS (cleanText t))).confidence := by
  obtain ⟨ht, hc⟩ := guards_of_splitWS_ne t h
  simp only [analyze]
  rw [if_neg (by simpa using ht), if_neg (by simpa using hc)]
  rfl

theorem analyze_top_eq (d : Detector) (t : Text) (ht : t ≠ []) (hc : cleanText t ≠ []) :
    (analyze d t).top
      = (((sortByScoreDesc (fullScores d (cleanText t) (splitWS (cleanText t)))).take 3).filter
          (fun p => 0 < p.2)).map
          (fun p => TopEntry.mk p.1 p.2
            (if 0 < ((fullScores d (cleanText t) (splitWS (cleanText t))).map Prod.snd).sum
             then p.2 / ((fullScores d (cleanText t) (splitWS (cleanText t))).map Prod.snd).sum
             else 0)) := by
  simp only [analyze]
  rw [if_neg (by simpa using ht), if_neg (by simpa using hc)]
  rfl

theorem fullVerdict_below_threshold (d : Detector) (cleaned : Text) (words : List Text)
    (p : String × ℚ) (hmax : pyMax (fullScores d cleaned words) = some p)
    (htot : 0 < ((fullScores d cleaned words).map Prod.snd).sum)
    (hconf : p.2 / ((fullScores d cleaned words).map Prod.snd).sum < d.min_confidence) :
    fullVerdict d cleaned words
      = ⟨"unknown", p.2 / ((fullScores d cleaned words).map Prod.snd).sum⟩ := by
  simp only [fullVerdict]
  rw [if_neg (ne_of_gt htot), hmax]
  simp only []
  rw [if_pos hconf]

theorem fullVerdict_confidence_unit (d : Detector) (cleaned : Text) (words : List Text)
    (hw : ∀ p ∈ d.language_data, Weights.NonNeg p.2.weights) :
    0 ≤ (fullVerdict d cleaned words).confidence
      ∧ (fullVerdict d cleaned words).confidence ≤ 1 := by
  have hnn := fullScores_nonneg d cleaned words hw
  simp only [fullVerdict]
  by_cases h0 : ((fullScores d cleaned words).map Prod.snd).sum = 0
  · rw [if_pos h0]
    exact ⟨le_refl 0, zero_le_one⟩
  · rw [if_neg h0]
    have htotnn : 0 ≤ ((fullScores d cleaned words).map Prod.snd).sum := by
      apply List.sum_nonneg
      intro x hx
      obtain ⟨p, hp, heq⟩ := List.mem_map.mp hx
      rw [← heq]
      exact hnn p hp
    have htotpos : 0 < ((fullScores d cleaned words).map Prod.snd).sum :=
      lt_of_le_of_ne htotnn (Ne.symm h0)
    cases hmax : pyMax (fullScores d cleaned words) with
    | none => exact ⟨le_refl 0, zero_le_one⟩
    | some p =>
      dsimp only
      have hmem := pyMax_mem _ _ hmax
      have hpnn : 0 ≤ p.2 := hnn p hmem
      have hple : p.2 ≤ ((fullScores d cleaned words).map Prod.snd).sum := by
        apply List.single_le_sum
        · intro x hx
          obtain ⟨q, hq, heq⟩ := List.mem_map.mp hx
          rw [← heq]
          exact hnn q hq
        · exact List.mem_map.mpr ⟨p, hmem, rfl⟩
      have h01 : 0 ≤ p.2 / ((fullScores d cleaned words).map Prod.snd).sum :=
        div_nonneg hpnn htotnn
      have h1 : p.2 / ((fullScores d cleaned words).map Prod.snd).sum ≤ 1 :=
        (div_le_one htotpos).mpr hple
      by_cases hc :
          p.2 / ((fullScores d cleaned words).map Prod.snd).sum < d.min_confidence
      · rw [if_pos hc]
        exact ⟨h01, h1⟩
      · rw [if_neg hc]
        exact ⟨h01, h1⟩

end LangDefLib


namespace LangDefLib

theorem foldl_const {α β : Type} (l : List β) (init : α) :
    l.foldl (fun a _ => a) init = init := by
  induction l with
  | nil => rfl
  | cons b rest ih => rw [List.foldl_cons]; exact ih

theorem condData_fold_fst (data : List (String × LanguageData))
    (C : String × LanguageData → Bool) (sc : List (String × Nat)) :
    (data.foldl (fun sc2 p => if C p then bump sc2 p.1 1 else sc2) sc).map Prod.fst
      = sc.map Prod.fst := by
  apply foldl_fst_invariant
  intro sc2 p
  by_cases hc : C p = true
  · rw [if_pos hc]
    exact bump_map_fst sc2 p.1 1
  · rw [if_neg hc]

theorem count_unique_fst (d : Detector) (t : Text) :
    (_count_unique_letters d t).map Prod.fst = d.language_data.map Prod.fst := by
  unfold _count_unique_letters
  rw [List.map_map]
  rfl

theorem count_frequent_fst (d : Detector) (t : Text) :
    (_count_frequent_letters d t).map Prod.fst = d.language_data.map Prod.fst := by
  unfold _count_frequent_letters
  rw [List.map_map]
  rfl

theorem check_word_endings_fst (d : Detector) (ws : List Text) :
    (_check_word_endings d ws).map Prod.fst = d.languages := by
  unfold _check_word_endings
  rw [foldl_fst_invariant]
  · exact initScores_map_fst d.languages
  · intro sc w
    by_cases hw : w.length < 3
    · rw [if_pos hw]
    · rw [if_neg hw]
      exact condData_fold_fst d.language_data _ sc

theorem check_marker_words_fst (d : Detector) (ws : List Text) :
    (_check_marker_words d ws).map Prod.fst = d.languages := by
  unfold _check_marker_words
  rw [foldl_fst_invariant]
  · exact initScores_map_fst d.languages
  · intro sc w
    exact condData_fold_fst d.language_data _ sc

theorem check_ngrams_fst (d : Detector) (t : Text) (n : Nat) :
    (_check_ngrams d t n).map Prod.fst = d.languages := by
  unfold _check_ngrams
  rw [foldl_fst_invariant]
  · exact initScores_map_fst d.languages
  · intro sc p
    by_cases h2 : n = 2
    · rw [if_pos h2]
      apply foldl_fst_invariant
      intro sc2 g
      exact bump_map_fst sc2 p.1 _
    · rw [if_neg h2]
      by_cases h3 : n = 3
      · rw [if_pos h3]
        apply foldl_fst_invariant
        intro sc2 g
        exact bump_map_fst sc2 p.1 _
      · rw [if_neg h3]

theorem check_word_endings_lookup_no_profile (d : Detector) (ws : List Text)
    (L : String) (hL : L ∈ d.languages) (hnp : L ∉ d.language_data.map Prod.fst) :
    (_check_word_endings d ws).lookup L = some 0 := by
  unfold _check_word_endings
  rw [foldl_lookup_invariant]
  · exact lookup_initScores d.languages L hL
  · intro sc w
    by_cases hw : w.length < 3
    · rw [if_pos hw]
    · rw [if_neg hw]
      exact lookup_foldl_condBump_not_mem d.language_data _ sc L hnp

theorem check_marker_words_lookup_no_profile (d : Detector) (ws : List Text)
    (L : String) (hL : L ∈ d.languages) (hnp : L ∉ d.language_data.map Prod.fst) :
    (_check_marker_words d ws).lookup L = some 0 := by
  unfold _check_marker_words
  rw [foldl_lookup_invariant]
  · exact lookup_initScores d.languages L hL
  · intro sc w
    exact lookup_foldl_condBump_not_mem d.language_data _ sc L hnp

theorem check_ngrams_lookup_no_profile (d : Detector) (t : Text) (n : Nat)
    (L : String) (hL : L ∈ d.languages) (hnp : L ∉ d.language_data.map Prod.fst) :
    (_check_ngrams d t n).lookup L = some 0 := by
  by_cases h2 : n = 2
  · subst h2
    rw [check_ngrams_eq_two, lookup_foldl_bumpData_not_mem _ _ _ _ hnp]
    exact lookup_initScores d.languages L hL
  · by_cases h3 : n = 3
    · subst h3
      rw [check_ngrams_eq_three, lookup_foldl_bumpData_not_mem _ _ _ _ hnp]
      exact lookup_initScores d.languages L hL
    · unfold _check_ngrams
      rw [foldl_congr_fun _ _ (fun sc _ => sc) _ ?_, foldl_const]
      · exact lookup_initScores d.languages L hL
      · intro sc p
        rw [if_neg h2, if_neg h3]

theorem foldl_rel {α β γ : Type} (R : α → β → Prop) (f : α → γ → α) (g : β → γ → β)
    (l : List γ) (a : α) (b : β) (hR : R a b)
    (hstep : ∀ a b c, R a b → R (f a c) (g b c)) : R (l.foldl f a) (l.foldl g b) := by
  induction l generalizing a b with
  | nil => exact hR
  | cons c rest ih => exact ih _ _ (hstep a b c hR)

theorem count_unique_pair (t : Text) :
    _count_unique_letters defaultDetector t
      = [("russian", (LangLib._count_unique_letters t).1),
         ("ukrainian", (LangLib._count_unique_letters t).2)] := rfl

theorem check_word_endings_pair (ws : List Text) :
    _check_word_endings defaultDetector ws
      = [("russian", (LangLib._check_word_endings ws).1),
         ("ukrainian", (LangLib._check_word_endings ws).2)] := by
  unfold _check_word_endings LangLib._check_word_endings
  refine foldl_rel
    (fun (sc : List (String × Nat)) (pr : Nat × Nat) =>
      sc = [("russian", pr.1), ("ukrainian", pr.2)])
    _ _ ws (initScores defaultDetector.languages) (0, 0) rfl ?_
  intro sc pr w hR
  rw [hR]
  by_cases hw : w.length < 3
  · rw [if_pos hw, if_pos hw]
  · rw [if_neg hw, if_neg hw]
    rw [show LangLib.russian_endings = russianData.word_endings from rfl,
      show LangLib.ukrainian_endings = ukrainianData.word_endings from rfl]
    simp only [defaultDetector, List.foldl_cons, List.foldl_nil, endingMatch]
    cases hru : russianData.word_endings.any (fun e => e.isSuffixOf w) <;>
      cases huk : ukrainianData.word_endings.any (fun e => e.isSuffixOf w) <;>
      simp [bump]

theorem check_marker_words_pair (ws : List Text) :
    _check_marker_words defaultDetector ws
      = [("russian", (LangLib._check_marker_words ws).1),
         ("ukrainian", (LangLib._check_marker_words ws).2)] := by
  unfold _check_marker_words LangLib._check_marker_words
  refine foldl_rel
    (fun (sc : List (String × Nat)) (pr : Nat × Nat) =>
      sc = [("russian", pr.1), ("ukrainian", pr.2)])
    _ _ (ws.map (fun w => w.map pyToLower)) (initScores defaultDetector.languages)
    (0, 0) rfl ?_
  intro sc pr w hR
  rw [hR]
  rw [show LangLib.russian_words = russianData.marker_words from rfl,
    show LangLib.ukrainian_words = ukrainianData.marker_words from rfl]
  simp only [defaultDetector, List.foldl_cons, List.foldl_nil]
  cases hru : russianData.marker_words.contains w <;>
    cases huk : ukrainianData.marker_words.contains w <;>
    simp [bump]

theorem check_digrams_pair (t : Text) :
    LangLib._check_digrams t
      = (getCount (_check_ngrams defaultDetector t 2) "russian",
         getCount (_check_ngrams defaultDetector t 2) "ukrainian") := by
  have hru := lookup_check_ngrams_two defaultDetector t "russian" russianData
    (by decide) (by decide) (List.mem_cons_self _ _)
  have huk := lookup_check_ngrams_two defaultDetector t "ukrainian" ukrainianData
    (by decide) (by decide) (List.mem_cons_of_mem _ (List.mem_cons_self _ _))
  unfold getCount LangLib._check_digrams
  rw [hru, huk]
  rfl

theorem top_list_props (scores : List (String × ℚ)) (total : ℚ) :
    ((((sortByScoreDesc scores).take 3).filter (fun p => 0 < p.2)).map
        (fun p => TopEntry.mk p.1 p.2 (if 0 < total then p.2 / total else 0))).Sorted
        (fun a b : TopEntry => b.score ≤ a.score)
      ∧ (∀ e ∈ (((sortByScoreDesc scores).take 3).filter (fun p => 0 < p.2)).map
          (fun p => TopEntry.mk p.1 p.2 (if 0 < total then p.2 / total else 0)),
          0 < e.score)
      ∧ ((((sortByScoreDesc scores).take 3).filter (fun p => 0 < p.2)).map
          (fun p => TopEntry.mk p.1 p.2 (if 0 < total then p.2 / total else 0))).length
          ≤ 3 := by
  haveI inst1 : IsTotal (String × ℚ) (fun a b => b.2 ≤ a.2) :=
    ⟨fun a b => le_total b.2 a.2⟩
  haveI inst2 : IsTrans (String × ℚ) (fun a b => b.2 ≤ a.2) :=
    ⟨fun a b c hab hbc => le_trans hbc hab⟩
  have hs : (sortByScoreDesc scores).Sorted (fun a b : String × ℚ => b.2 ≤ a.2) := by
    unfold sortByScoreDesc
    exact List.sorted_insertionSort _ _
  have hsub : (((sortByScoreDesc scores).take 3).filter (fun p => 0 < p.2)).Sublist
      (sortByScoreDesc scores) :=
    List.Sublist.trans (List.filter_sublist _) (List.take_sublist 3 _)
  have hps : (((sortByScoreDesc scores).take 3).filter (fun p => 0 < p.2)).Pairwise
      (fun a b : String × ℚ => b.2 ≤ a.2) := List.Pairwise.sublist hsub hs
  refine ⟨?_, ?_, ?_⟩
  · exact List.pairwise_map.mpr hps
  · intro e he
    obtain ⟨q, hq, heq⟩ := List.mem_map.mp he
    have hq2 := List.of_mem_filter hq
    rw [← heq]
    simpa using hq2
  · rw [List.length_map]
    exact le_trans (List.length_filter_le _ _) (List.length_take_le 3 _)

end LangDefLib

section Claims

open LangDefLib

/-- C1: for every input that yields at least one token, if exactly one
active language has a strictly positive unique-letter count over the cleaned
text and every other active language has zero, `detect` returns that
language with confidence exactly `0.95` (the fast path, skipping full
scoring). -/
theorem claim1_fast_path_hit (d : Detector) (t : Text) (L : String) (n : Nat)
    (_hact : d.language_data.map Prod.fst = d.languages)
    (hws : splitWS (cleanText t) ≠ [])
    (hmem : (L, n) ∈ _count_unique_letters d (cleanText t))
    (hpos : 0 < n)
    (hzero : ∀ p ∈ _count_unique_letters d (cleanText t), p.1 ≠ L → p.2 = 0) :
    detect d t = ⟨L, 19/20⟩ := by
  rw [detect_eq_of_tokens d t hws, fastPathFind_eq_some _ L n hmem hpos hzero]

/-- Witness for C1: the default detector on `"ы"` (a letter unique to the
russian profile) answers russian with confidence `0.95`. -/
theorem claim1_fast_path_hit_witness :
    detect defaultDetector "ы".data = ⟨"russian", 19/20⟩ :=
  claim1_fast_path_hit defaultDetector "ы".data "russian" 1 (by decide) (by decide)
    (by decide) (by decide) (by decide)

/-- C2 counterexample: on the empty string, `analyze` returns an error
dictionary carrying no `language`/`confidence` keys, so the claim that every
public entry point (in particular `analyze`) resolves empty input to the
`unknown, 0.0` outcome is false. -/
theorem claim2_counterexample :
    (analyze defaultDetector []).language? ≠ some "unknown"
      ∧ (analyze defaultDetector []).confidence? ≠ some 0 := by
  constructor <;> decide

/-- C2 amended: on empty, non-string or blank-normalizing input, `detect`
resolves to `unknown, 0.0` and `analyze` returns one of its two error
dictionaries; neither raises. -/
theorem claim2_amended_empty_handling (d : Detector) (ot : Option Text)
    (h : ∀ t, ot = some t → cleanText t = []) :
    detectAny d ot = ⟨"unknown", 0⟩
      ∧ (analyzeAny d ot = .error "Empty or invalid text"
          ∨ analyzeAny d ot = .error "Text contains no analyzable content") := by
  cases ot with
  | none => exact ⟨rfl, Or.inl rfl⟩
  | some t =>
    have hc := h t rfl
    exact ⟨detect_unknown_of_clean_nil d t hc, analyze_error_of_clean_nil d t hc⟩

/-- Witness for the amended C2 at the punctuation-only input `"?!"`. -/
theorem claim2_amended_witness :
    detectAny defaultDetector (some "?!".data) = ⟨"unknown", 0⟩
      ∧ (analyzeAny defaultDetector (some "?!".data) = .error "Empty or invalid text"
          ∨ analyzeAny defaultDetector (some "?!".data)
              = .error "Text contains no analyzable content") :=
  claim2_amended_empty_handling defaultDetector (some "?!".data)
    (fun t ht => by
      injection ht with h2
      rw [← h2]
      decide)

/-- C3: when the fast path misses, the aggregated total is positive, and the
best score over the total falls below `min_confidence`, `detect` returns
`unknown` together with that computed confidence value (not `0.0`). -/
theorem claim3_below_threshold_reports_confidence (d : Detector) (t : Text)
    (p : String × ℚ)
    (hws : splitWS (cleanText t) ≠ [])
    (hfp : fastPathFind (_count_unique_letters d (cleanText t)) = none)
    (hmax : pyMax (fullScores d (cleanText t) (splitWS (cleanText t))) = some p)
    (htot : 0 < ((fullScores d (cleanText t) (splitWS (cleanText t))).map Prod.snd).sum)
    (hconf : p.2 / ((fullScores d (cleanText t) (splitWS (cleanText t))).map Prod.snd).sum
        < d.min_confidence) :
    detect d t = ⟨"unknown",
      p.2 / ((fullScores d (cleanText t) (splitWS (cleanText t))).map Prod.snd).sum⟩ := by
  rw [detect_eq_of_tokens d t hws, hfp]
  exact fullVerdict_below_threshold d _ _ p hmax htot hconf

attribute [local semireducible] Rat.mul Rat.inv Rat.add Rat.sub in
/-- Witness for C3: on `"на"` the default detector scores russian and
ukrainian `1.0` each, confidence `0.5 < 0.6`, and answers
`unknown` with confidence `0.5`. -/
theorem claim3_witness :
    detect defaultDetector "на".data = ⟨"unknown", 1/2⟩ := by
  have h := claim3_below_threshold_reports_confidence defaultDetector "на".data
    ("russian", 1) (by decide) (by decide) (by decide) (by decide) (by decide)
  rw [h]
  decide

/-- C4: whenever every loaded profile's weights are non-negative, the
confidence field of `detect`'s result lies in `[0, 1]`. -/
theorem claim4_confidence_unit (d : Detector) (t : Text)
    (hw : ∀ p ∈ d.language_data, Weights.NonNeg p.2.weights) :
    0 ≤ (detect d t).confidence ∧ (detect d t).confidence ≤ 1 := by
  simp only [detect]
  split
  · exact ⟨le_refl 0, zero_le_one⟩
  · split
    · exact ⟨le_refl 0, zero_le_one⟩
    · split
      · exact ⟨le_refl 0, zero_le_one⟩
      · split
        · show (0:ℚ) ≤ 19/20 ∧ (19:ℚ)/20 ≤ 1
          constructor <;> norm_num
        · exact fullVerdict_confidence_unit d _ _ hw

attribute [local semireducible] Rat.mul Rat.inv Rat.add Rat.sub in
/-- Witness for C4 at the default detector and the input `"на"`. -/
theorem claim4_witness :
    (∀ p ∈ defaultDetector.language_data, Weights.NonNeg p.2.weights)
      ∧ (0 ≤ (detect defaultDetector "на".data).confidence
          ∧ (detect defaultDetector "на".data).confidence ≤ 1) :=
  ⟨by decide, claim4_confidence_unit defaultDetector "на".data (by decide)⟩

/-- C10: at most one entry of a unique-letter count map satisfies the
fast-path condition (positive count, all other entries zero), and hence the
fast-path search of `detect` returns the same language on any reordering of
the profile mapping. -/
theorem claim10_fast_path_order_independent (s₁ s₂ : List (String × Nat))
    (hperm : s₁.Perm s₂) :
    (∀ p ∈ s₁, ∀ q ∈ s₁, fastCond s₁ p = true → fastCond s₁ q = true → p.1 = q.1)
      ∧ fastPathFind s₁ = fastPathFind s₂ :=
  ⟨fun p _ q hq hp hqc => fastCond_keys_eq s₁ p q hq hp hqc,
   fastPathFind_perm s₁ s₂ hperm⟩

/-- Witness for C10 on the two orderings of a concrete two-language count
map. -/
theorem claim10_witness :
    ([("russian", 1), ("ukrainian", 0)] : List (String × Nat)).Perm
        [("ukrainian", 0), ("russian", 1)]
      ∧ fastPathFind [("russian", 1), ("ukrainian", 0)]
          = fastPathFind [("ukrainian", 0), ("russian", 1)] := by
  have hperm : ([("russian", 1), ("ukrainian", 0)] : List (String × Nat)).Perm
      [("ukrainian", 0), ("russian", 1)] := List.Perm.swap _ _ _
  exact ⟨hperm,
    (claim10_fast_path_order_independent _ _ hperm).2⟩

/-- C5 counterexample: Python `str.count` counts non-overlapping
occurrences, so on `"ннн"` the digram extractor credits russian with `1` for
its digram list (which contains `"нн"` once), while the spec's overlapping
count (embodied by `specCheckNgrams`/`countOverlapping`) would credit `2`:
the pattern `"нн"` occurs once non-overlapping but twice overlapping in
`"ннн"`. -/
theorem claim5_counterexample :
    (_check_ngrams defaultDetector "ннн".data 2).lookup "russian"
        ≠ (specCheckNgrams defaultDetector "ннн".data 2).lookup "russian"
      ∧ pyCount "нн".data "ннн".data = 1
      ∧ countOverlapping "нн".data "ннн".data = 2 :=
  ⟨by decide, by decide, by decide⟩

/-- C5 amended: for every cleaned text and every active language with a
loaded profile (profile keys distinct and within the active list), the
digram/trigram extractor's count for that language equals the sum, over the
profile's pattern list, of the number of non-overlapping left-to-right
occurrences (Python `str.count`) of the pattern in the lowercased text. -/
theorem claim5_ngrams_nonoverlapping (d : Detector) (t : Text) (lang : String)
    (ld : LanguageData) (hnd : (d.language_data.map Prod.fst).Nodup)
    (hsub : ∀ k ∈ d.language_data.map Prod.fst, k ∈ d.languages)
    (hmem : (lang, ld) ∈ d.language_data) :
    (_check_ngrams d t 2).lookup lang
        = some ((ld.digrams.map (fun g => pyCount g (t.map pyToLower))).sum)
      ∧ (_check_ngrams d t 3).lookup lang
        = some ((ld.trigrams.map (fun g => pyCount g (t.map pyToLower))).sum) := by
  have hlang : lang ∈ d.languages := hsub lang (List.mem_map.mpr ⟨(lang, ld), hmem, rfl⟩)
  exact ⟨lookup_check_ngrams_two d t lang ld hnd hlang hmem,
    lookup_check_ngrams_three d t lang ld hnd hlang hmem⟩

attribute [local semireducible] Rat.mul Rat.inv Rat.add Rat.sub in
/-- Witness for the amended C5 at the default detector, russian, `"ннн"`. -/
theorem claim5_witness :
    (_check_ngrams defaultDetector "ннн".data 2).lookup "russian"
        = some ((russianData.digrams.map
            (fun g => pyCount g ("ннн".data.map pyToLower))).sum)
      ∧ (_check_ngrams defaultDetector "ннн".data 3).lookup "russian"
        = some ((russianData.trigrams.map
            (fun g => pyCount g ("ннн".data.map pyToLower))).sum) :=
  claim5_ngrams_nonoverlapping defaultDetector "ннн".data "russian" russianData
    (by decide) (by decide) (by decide)

/-- C6 counterexample: with `languages=['russian','german']`, where no
profile for german can be loaded, `_count_unique_letters` keys its result by
the loaded profiles only, so its key set is `['russian']`, not the full
active list. -/
theorem claim6_counterexample :
    (_count_unique_letters russianGermanDetector "привет".data).map Prod.fst
      ≠ russianGermanDetector.languages := by decide

/-- C6 amended: the word-endings, marker-words and n-gram extractors key
their result dicts by the full active language list and report `0` for an
active language with no loaded profile, while the two letter-count
extractors key theirs by the loaded profiles only (all values are naturals,
hence non-negative). -/
theorem claim6_extractor_key_sets (d : Detector) (t : Text) (ws : List Text)
    (n : Nat) (_hsub : ∀ k ∈ d.language_data.map Prod.fst, k ∈ d.languages) :
    (_count_unique_letters d t).map Prod.fst = d.language_data.map Prod.fst
      ∧ (_count_frequent_letters d t).map Prod.fst = d.language_data.map Prod.fst
      ∧ (_check_word_endings d ws).map Prod.fst = d.languages
      ∧ (_check_marker_words d ws).map Prod.fst = d.languages
      ∧ (_check_ngrams d t n).map Prod.fst = d.languages
      ∧ (∀ L ∈ d.languages, L ∉ d.language_data.map Prod.fst →
          (_check_word_endings d ws).lookup L = some 0
            ∧ (_check_marker_words d ws).lookup L = some 0
            ∧ (_check_ngrams d t n).lookup L = some 0) :=
  ⟨count_unique_fst d t, count_frequent_fst d t, check_word_endings_fst d ws,
   check_marker_words_fst d ws, check_ngrams_fst d t n,
   fun L hL hnp =>
     ⟨check_word_endings_lookup_no_profile d ws L hL hnp,
      check_marker_words_lookup_no_profile d ws L hL hnp,
      check_ngrams_lookup_no_profile d t n L hL hnp⟩⟩

/-- Witness for the amended C6 at the russian-plus-german detector on a
concrete text, exercising german as the profile-less active language. -/
theorem claim6_witness :
    (∀ k ∈ russianGermanDetector.language_data.map Prod.fst,
        k ∈ russianGermanDetector.languages)
      ∧ (_check_word_endings russianGermanDetector
          (splitWS (cleanText "привет".data))).map Prod.fst
            = russianGermanDetector.languages
      ∧ (_check_ngrams russianGermanDetector "привет".data 2).lookup "german"
          = some 0 := by
  have h := claim6_extractor_key_sets russianGermanDetector "привет".data
    (splitWS (cleanText "привет".data)) 2 (by decide)
  exact ⟨by decide, h.2.2.1,
    (h.2.2.2.2.2 "german" (by decide) (by decide)).2.2⟩

attribute [local semireducible] Rat.mul Rat.inv Rat.add Rat.sub in
/-- C7 counterexample: on `"на"` russian and ukrainian tie with score `1.0`
each, so `top_languages` holds two entries of equal score and is not
strictly descending. -/
theorem claim7_counterexample :
    ¬ List.Pairwise (fun a b : TopEntry => b.score < a.score)
        (analyze defaultDetector "на".data).top := by
  intro h
  have htop : (analyze defaultDetector "на".data).top
      = [⟨"russian", 1, 1/2⟩, ⟨"ukrainian", 1, 1/2⟩] := by decide
  rw [htop] at h
  have hlt := List.rel_of_pairwise_cons h (List.mem_cons_self _ _)
  simp at hlt

/-- C7 amended: for every input, `top_languages` is sorted non-increasingly
by score (ties kept in insertion order by the stable sort), contains only
entries with score strictly greater than `0`, and has length at most 3 (on
the error shapes the list is empty and the bounds hold trivially). -/
theorem claim7_top_languages (d : Detector) (t : Text) :
    (analyze d t).top.Sorted (fun a b : TopEntry => b.score ≤ a.score)
      ∧ (∀ e ∈ (analyze d t).top, 0 < e.score)
      ∧ (analyze d t).top.length ≤ 3 := by
  by_cases hc : cleanText t = []
  · rcases analyze_error_of_clean_nil d t hc with h | h <;> rw [h] <;>
      exact ⟨List.sorted_nil, fun e he => absurd he (List.not_mem_nil e),
        Nat.le_of_lt (by decide)⟩
  · have ht : t ≠ [] := fun h0 => hc (by rw [h0]; rfl)
    rw [analyze_top_eq d t ht hc]
    exact top_list_props _ _

/-- C8: whenever the input yields at least one token and the fast-path
condition fails, `analyze` reports exactly the language and confidence of
`detect`; moreover, on every tokenizable input (fast-path condition holding
or not), `analyze`'s language and confidence come from the full-scoring
verdict — `analyze` never takes the fast-path short-circuit. -/
theorem claim8_analyze_matches_detect (d : Detector) (t : Text)
    (hws : splitWS (cleanText t) ≠ [])
    (hfp : fastPathFind (_count_unique_letters d (cleanText t)) = none) :
    (analyze d t).language? = some (detect d t).language
      ∧ (analyze d t).confidence? = some (detect d t).confidence
      ∧ (∀ t2 : Text, splitWS (cleanText t2) ≠ [] →
          (analyze d t2).language?
              = some (fullVerdict d (cleanText t2) (splitWS (cleanText t2))).language
            ∧ (analyze d t2).confidence?
              = some (fullVerdict d (cleanText t2) (splitWS (cleanText t2))).confidence) := by
  have hdet : detect d t = fullVerdict d (cleanText t) (splitWS (cleanText t)) := by
    rw [detect_eq_of_tokens d t hws, hfp]
  refine ⟨?_, ?_, ?_⟩
  · rw [hdet]
    exact analyze_language?_eq d t hws
  · rw [hdet]
    exact analyze_confidence?_eq d t hws
  · intro t2 h2
    exact ⟨analyze_language?_eq d t2 h2, analyze_confidence?_eq d t2 h2⟩

/-- Witness for C8 on the non-fast-path input `"на"`. -/
theorem claim8_witness :
    splitWS (cleanText "на".data) ≠ []
      ∧ fastPathFind (_count_unique_letters defaultDetector (cleanText "на".data)) = none
      ∧ (analyze defaultDetector "на".data).language?
          = some (detect defaultDetector "на".data).language
      ∧ (analyze defaultDetector "на".data).confidence?
          = some (detect defaultDetector "на".data).confidence := by
  have h := claim8_analyze_matches_detect defaultDetector "на".data (by decide) (by decide)
  exact ⟨by decide, by decide, h.1, h.2.1⟩

attribute [local semireducible] Rat.mul Rat.inv Rat.add Rat.sub in
/-- C9 counterexample: on the text `"ы"` both classifiers answer russian,
but the generalized detector fast-paths to the fixed confidence `0.95`
while the two-language `get_confidence` (which has no fast path) computes
the full-scoring confidence `1.0` — the two implementations do not produce
the same language-and-confidence result. -/
theorem claim9_counterexample :
    (LangLib.get_confidence "ы".data).language
        = (detect defaultDetector "ы".data).language
      ∧ (LangLib.get_confidence "ы".data).confidence
        ≠ (detect defaultDetector "ы".data).confidence :=
  ⟨by decide, by decide⟩

/-- C9 amended: the two classifiers share their unique-letter, word-ending,
marker-word and digram extractors — on every text and word list these
produce identical per-language counts for russian and ukrainian — but the
end-to-end results differ: the two-language variant has no fast path, no
trigram feature, omits `'ё'` from the russian frequent letters, applies no
minimum-confidence gate, and sends top-score ties to ukrainian rather than
to the first language in insertion order. -/
theorem claim9_shared_extractors_agree (t : Text) (ws : List Text) :
    _count_unique_letters defaultDetector t
        = [("russian", (LangLib._count_unique_letters t).1),
           ("ukrainian", (LangLib._count_unique_letters t).2)]
      ∧ _check_word_endings defaultDetector ws
        = [("russian", (LangLib._check_word_endings ws).1),
           ("ukrainian", (LangLib._check_word_endings ws).2)]
      ∧ _check_marker_words defaultDetector ws
        = [("russian", (LangLib._check_marker_words ws).1),
           ("ukrainian", (LangLib._check_marker_words ws).2)]
      ∧ LangLib._check_digrams t
        = (getCount (_check_ngrams defaultDetector t 2) "russian",
           getCount (_check_ngrams defaultDetector t 2) "ukrainian") :=
  ⟨count_unique_pair t, check_word_endings_pair ws, check_marker_words_pair ws,
   check_digrams_pair t⟩

end Claims
